import Mathlib

/-!
Shallow embedding of the viewport-navigation engine in `src/index.js` of
JoshuaKGoldberg/joshuakgoldberg-dot-com: the section locator, the selection
state controller, the scroll animator, the keyboard handler, the throttled
scroll handler and the image cache loader.  DOM elements are modelled by the
fields the script reads and writes (`className`, `id`, `offsetTop`); machine
numbers are modelled as `Int`, indices as `Nat`.
-/

namespace Jkg

/-- A DOM element as the script sees it: its entire class attribute, its id
and its vertical document offset `offsetTop`. -/
structure Element where
  className : String
  id : String
  offsetTop : Int
deriving DecidableEq

instance : Inhabited Element :=
  ⟨⟨"", "", 0⟩⟩

/-- The descending index loop of `getCurrentSection`
(`for (let i = sections.length - 1; i >= 0; i -= 1)`): `sectionScan sections
effective n` checks indices `n-1, n-2, …, 0` in that order and returns the
first (hence highest) index whose `offsetTop` is strictly below `effective`;
`0` when none qualifies (the `return 0` after the loop). -/
def sectionScan (sections : List Element) (effective : Int) : Nat → Nat
  | 0 => 0
  | n + 1 =>
    if (sections.getD n default).offsetTop < effective then n
    else sectionScan sections effective n

/-- `getCurrentSection(sections, offsetY, partialHeight)` from `src/index.js`:
returns `0` when `offsetY === 0`; otherwise adds `partialHeight` to `offsetY`
and scans the sections from last to first for the first one whose `offsetTop`
is strictly below the sum. -/
def getCurrentSection (sections : List Element) (offsetY partialHeight : Int) : Nat :=
  if offsetY = 0 then 0
  else sectionScan sections (offsetY + partialHeight) sections.length

/-- Modelled from the spec: the reference algorithm of §4.2 of the spec for
the Section Locator, written from the spec's words alone.  If `offsetY == 0`
return `0`; otherwise, with `effective = offsetY + partialHeight`, return the
highest index whose top offset is strictly less than `effective`, and `0`
when no section qualifies (the highest element of the filtered index range,
taken by folding `max` over it). -/
def locateSpec (sections : List Element) (offsetY partialHeight : Int) : Nat :=
  if offsetY = 0 then 0
  else
    ((List.range sections.length).filter
      (fun i => decide ((sections.getD i default).offsetTop < offsetY + partialHeight))).foldl
      max 0

/-- One element-level class assignment `grouping[i].className = c` from
`setSelectedSection`: overwrite the entire class attribute of the element at
index `i`, leaving `id` and `offsetTop` untouched. -/
def setClassAt : List Element → Nat → String → List Element
  | [], _, _ => []
  | e :: rest, 0, c => { e with className := c } :: rest
  | e :: rest, n + 1, c => e :: setClassAt rest n c

/-- The whole-page state the script mutates: the linker elements, the
section elements, the `selectedSection` index, the scroll animator's
`scrolling` flag and saved `lastOffsetY` sample, the `addedScrollEvents`
flag, the window's vertical scroll offset and the location's hash string. -/
structure AppState where
  linkers : List Element
  sections : List Element
  selectedSection : Nat
  scrolling : Bool
  addedScrollEvents : Bool
  offsetY : Int
  lastOffsetY : Option Int
  locationHash : String
deriving DecidableEq

/-- `setSelectedSection(newSection)` from `src/index.js`: for each of the
two groupings (linkers, then sections), clear the class attribute of the
element at the old `selectedSection` index and write `"selected"` over the
class attribute of the element at `newSection`; then commit
`selectedSection = newSection`. -/
def setSelectedSection (s : AppState) (newSection : Nat) : AppState :=
  { s with
    linkers := setClassAt (setClassAt s.linkers s.selectedSection "") newSection "selected"
    sections := setClassAt (setClassAt s.sections s.selectedSection "") newSection "selected"
    selectedSection := newSection }

/-- `setLocationHash(hash)` from `src/index.js`: writes `"#" + hash` into the
location via `history.replaceState` (falling back to a direct hash
assignment).  The temporary clearing and restoring of the target element's
id around the write is a net no-op on the element, so only the resulting
hash is modelled. -/
def setLocationHash (s : AppState) (hash : String) : AppState :=
  { s with locationHash := "#" ++ hash }

/-- The body of the throttled `onScroll` handler from `src/index.js` (one
scroll pass, after the throttle admits it): read `offsetY`, recompute the
section index with `getCurrentSection` (the script passes
`window.innerHeight / 2` as `partialHeight`), call `setSelectedSection` only
when the index differs from the current selection, and then
unconditionally call `setLocationHash` with the recomputed section's id. -/
def onScrollPass (partialHeight : Int) (s : AppState) : AppState :=
  let offsetY := s.offsetY
  let newSection := getCurrentSection s.sections offsetY partialHeight
  let s1 := if newSection ≠ s.selectedSection then setSelectedSection s newSection else s
  setLocationHash s1 ((s1.sections.getD newSection default).id)

/-- The window scroll state inside one `scrollToSection` animation: the
current scroll offset, the previous frame's saved offset (`lastOffsetY`,
initially `undefined`), the animator's `scrolling` flag and the
`addedScrollEvents` flag. -/
structure ScrollAnim where
  offsetY : Int
  lastOffsetY : Option Int
  scrolling : Bool
  addedScrollEvents : Bool
deriving DecidableEq

/-- The per-frame step clamp of `scroller`: a positive difference is capped
by `Math.min(difference, 49)`, a non-positive one by
`Math.max(difference, -49)`. -/
def clampStep (difference : Int) : Int :=
  if difference > 0 then min difference 49 else max difference (-49)

/-- The scroll-boundary model of `window.scrollTo(0, y)`: the window clamps
the requested offset into its scrollable range `[lo, hi]`. -/
def scrollClamp (lo hi y : Int) : Int :=
  max lo (min hi y)

/-- One frame of the `scroller` loop from `src/index.js`, for a window with
scroll range `[lo, hi]` and a target element at `offsetTop`.  If the offset
equals the previous frame's saved offset, or the remaining difference is
zero, the loop ends: `scrolling` is cleared, `lastOffsetY` is reset to
`undefined` and `addScrollEvents()` re-attaches the scroll listener (second
component `false` = do not continue).  Otherwise the step is clamped,
`lastOffsetY` saves the current offset, and the window scrolls to
`offsetY + difference` (second component `true` = another frame is
scheduled via `requestAnimationFrame`). -/
def scrollerFrame (lo hi offsetTop : Int) (s : ScrollAnim) : ScrollAnim × Bool :=
  let difference := offsetTop - s.offsetY
  if s.lastOffsetY = some s.offsetY ∨ difference = 0 then
    ({ s with scrolling := false, lastOffsetY := none, addedScrollEvents := true }, false)
  else
    let d := clampStep difference
    ({ s with offsetY := scrollClamp lo hi (s.offsetY + d), lastOffsetY := some s.offsetY }, true)

/-- Runs the `scroller` loop for at most `fuel` frames and returns the
resulting scroll state (the state reached when the loop's exit condition
fires, or the state after `fuel` frames when it has not fired yet). -/
def scrollerRunAll (lo hi offsetTop : Int) : Nat → ScrollAnim → ScrollAnim
  | 0, s => s
  | fuel + 1, s =>
    match scrollerFrame lo hi offsetTop s with
    | (s', false) => s'
    | (s', true) => scrollerRunAll lo hi offsetTop fuel s'

/-- Whether the `scroller` loop's exit condition fires within `fuel`
frames. -/
def scrollerTerminatesIn (lo hi offsetTop : Int) : Nat → ScrollAnim → Bool
  | 0, _ => false
  | fuel + 1, s =>
    match scrollerFrame lo hi offsetTop s with
    | (_, false) => true
    | (s', true) => scrollerTerminatesIn lo hi offsetTop fuel s'

/-- `scrollToSection(sectionIndex)` from `src/index.js`: a no-op while
`scrolling` is set; otherwise it sets `scrolling`, calls
`removeScrollEvents()` (clearing `addedScrollEvents`), reads the target
section's `offsetTop`, and runs the `scroller` frame loop (given `fuel`
available animation frames) starting from the current offset with
`lastOffsetY` undefined. -/
def scrollToSection (lo hi : Int) (fuel : Nat) (s : AppState) (sectionIndex : Nat) : AppState :=
  if s.scrolling then s
  else
    let offsetTop := (s.sections.getD sectionIndex default).offsetTop
    let t := scrollerRunAll lo hi offsetTop fuel
      ⟨s.offsetY, none, true, false⟩
    { s with
      offsetY := t.offsetY
      lastOffsetY := t.lastOffsetY
      scrolling := t.scrolling
      addedScrollEvents := t.addedScrollEvents }

/-- A keyboard event as `onKeyDown` reads it. -/
structure KeyEvent where
  shiftKey : Bool
  ctrlKey : Bool
  keyCode : Nat
deriving DecidableEq

/-- The `eventKeyCodes` table from `src/index.js`: key code 37 (left) maps
to `-1`, key code 39 (right) maps to `1`, anything else is absent. -/
def eventKeyCodes (keyCode : Nat) : Option Int :=
  if keyCode = 37 then some (-1) else if keyCode = 39 then some 1 else none

/-- `onKeyDown(event)` from `src/index.js`: returns untouched state when
shift or control is held or the key code is not in `eventKeyCodes`;
otherwise computes `newSection = selectedSection + direction`, returns
untouched state when that is below `0` or equal to `sections.length`, and
else calls `setSelectedSection(newSection)` followed by
`scrollToSection(newSection)`. -/
def onKeyDown (lo hi : Int) (fuel : Nat) (event : KeyEvent) (s : AppState) : AppState :=
  if event.shiftKey || event.ctrlKey then s
  else
    match eventKeyCodes event.keyCode with
    | none => s
    | some direction =>
      let newSection : Int := (s.selectedSection : Int) + direction
      if newSection < 0 ∨ newSection = (s.sections.length : Int) then s
      else scrollToSection lo hi fuel (setSelectedSection s newSection.toNat) newSection.toNat

/-- The `localStoragePrefix` constant from `src/index.js`. -/
def localStoragePrefix : String :=
  "jkg-dot-com-images:"

/-- `localStorage.getItem(key)`: the value of the first entry with the
given key, `null` (here `none`) when there is none. -/
def storageGet : List (String × String) → String → Option String
  | [], _ => none
  | (k, v) :: rest, key => if k = key then some v else storageGet rest key

/-- `localStorage.setItem(key, value)`: overwrite the first entry with the
given key, or append a new entry when there is none. -/
def storageSet : List (String × String) → String → String → List (String × String)
  | [], key, value => [(key, value)]
  | (k, v) :: rest, key, value =>
    if k = key then (k, value) :: rest else (k, v) :: storageSet rest key value

/-- How many entries of the store carry the given key. -/
def storageCount : List (String × String) → String → Nat
  | [], _ => 0
  | (k, _) :: rest, key => (if k = key then 1 else 0) + storageCount rest key

/-- The storage key `fadeImageIn` derives for a deferred-source URL. -/
def storageKeyOf (uri : String) : String :=
  localStoragePrefix ++ uri

/-- An image element as `fadeImageIn` reads and writes it: its deferred
`data-src` attribute, its live `src` attribute (absent until assigned) and
its class attribute. -/
structure Image where
  dataSrc : String
  src : Option String
  className : String
deriving DecidableEq

/-- What one `fadeImageIn` call has produced once all of its scheduled
callbacks have run: the updated image element, the updated local storage,
and the list of URLs it requested over the network. -/
structure LoadResult where
  image : Image
  store : List (String × String)
  requests : List String
deriving DecidableEq

/-- The cache-miss path of `fadeImageIn`: issue the `XMLHttpRequest` for the
deferred source, and on load (after the fade delay) read the response into
a data URL (`encode` models the network fetch plus `FileReader` encoding of
the fetched blob), persist it under the storage key, assign it as the live
source and swap the class from loading to loaded.  (JS `String.replace`
with a string pattern replaces the first occurrence; at most one occurrence
of `"loading"` arises here.) -/
def fadeImageInFetch (store : List (String × String)) (encode : String → String)
    (image : Image) : LoadResult :=
  let newImageUri := image.dataSrc
  let storageKey := localStoragePrefix ++ newImageUri
  let result := encode newImageUri
  { image :=
      { image with
        src := some result
        className := (image.className ++ " loading").replace "loading" "loaded" }
    store := storageSet store storageKey result
    requests := [newImageUri] }

/-- The dispatch of `fadeImageIn` on `localStorage.getItem(storageKey)`: a
stored value that is truthy (JS `if (storedData)`, so a non-empty string) is
assigned as the live source after the fade delay, with no network request
and no storage write; a missing entry — or the falsy empty-string entry —
takes the cache-miss path. -/
def fadeImageInStep (store : List (String × String)) (encode : String → String)
    (image : Image) : Option String → LoadResult
  | none => fadeImageInFetch store encode image
  | some storedData =>
    if storedData = "" then fadeImageInFetch store encode image
    else
      { image :=
          { image with
            src := some storedData
            className := (image.className ++ " loading").replace "loading" "loaded" }
        store := store
        requests := [] }

/-- `fadeImageIn(image)` from `src/index.js`, with every scheduled callback
run to completion: derive the storage key from the deferred source, look it
up in local storage and dispatch on the stored data. -/
def fadeImageIn (store : List (String × String)) (encode : String → String)
    (image : Image) : LoadResult :=
  let storageKey := localStoragePrefix ++ image.dataSrc
  fadeImageInStep store encode image (storageGet store storageKey)

/-- How many elements of a grouping carry exactly the `"selected"` class. -/
def countSelected : List Element → Nat
  | [] => 0
  | e :: rest => (if e.className = "selected" then 1 else 0) + countSelected rest

theorem foldl_max_le {l : List Nat} {a n : Nat} (ha : a ≤ n)
    (h : ∀ x ∈ l, x ≤ n) : l.foldl max a ≤ n := by
  induction l generalizing a with
  | nil => exact ha
  | cons x xs ih =>
    exact ih (max_le ha (h x (List.mem_cons_self x xs)))
      (fun y hy => h y (List.mem_cons_of_mem x hy))

theorem sectionScan_eq_foldl (sections : List Element) (effective : Int) :
    ∀ n : Nat,
      sectionScan sections effective n =
        ((List.range n).filter
          (fun i => decide ((sections.getD i default).offsetTop < effective))).foldl max 0 := by
  intro n
  induction n with
  | zero => rfl
  | succ n ih =>
    rw [List.range_succ, List.filter_append, List.foldl_append]
    by_cases h : (sections.getD n default).offsetTop < effective
    · have hbase :
        ((List.range n).filter
          (fun i => decide ((sections.getD i default).offsetTop < effective))).foldl max 0 ≤ n := by
        refine foldl_max_le (Nat.zero_le n) (fun x hx => ?_)
        have := List.mem_range.mp (List.mem_filter.mp hx).1
        omega
      simp only [sectionScan, if_pos h]
      have hf :
          List.filter (fun i => decide ((sections.getD i default).offsetTop < effective)) [n] =
            [n] := by
        simp only [List.filter_cons, List.filter_nil, decide_eq_true h, if_true]
      rw [hf, List.foldl_cons, List.foldl_nil]
      omega
    · simp only [sectionScan, if_neg h, List.filter_cons]
      simp only [decide_eq_false h]
      simp only [List.filter_nil, List.foldl_nil]
      exact ih

theorem sectionScan_le (sections : List Element) (effective : Int) :
    ∀ n : Nat, sectionScan sections effective n ≤ n := by
  intro n
  induction n with
  | zero => exact Nat.le_refl 0
  | succ n ih =>
    simp only [sectionScan]
    split
    · exact Nat.le_succ n
    · exact Nat.le_trans ih (Nat.le_succ n)

theorem sectionScan_mono (sections : List Element) {e₁ e₂ : Int} (he : e₁ ≤ e₂) :
    ∀ n : Nat, sectionScan sections e₁ n ≤ sectionScan sections e₂ n := by
  intro n
  induction n with
  | zero => exact Nat.le_refl 0
  | succ n ih =>
    simp only [sectionScan]
    by_cases h1 : (sections.getD n default).offsetTop < e₁
    · rw [if_pos h1, if_pos (lt_of_lt_of_le h1 he)]
    · rw [if_neg h1]
      by_cases h2 : (sections.getD n default).offsetTop < e₂
      · rw [if_pos h2]
        exact Nat.le_trans ih (sectionScan_le sections e₂ n)
      · rw [if_neg h2]
        exact ih

theorem sectionScan_eq_zero (sections : List Element) (effective : Int) :
    ∀ n : Nat, (∀ i, i < n → ¬ (sections.getD i default).offsetTop < effective) →
      sectionScan sections effective n = 0 := by
  intro n
  induction n with
  | zero => intro _; rfl
  | succ n ih =>
    intro h
    simp only [sectionScan, if_neg (h n (Nat.lt_succ_self n))]
    exact ih (fun i hi => h i (Nat.lt_succ_of_lt hi))

/-- C1: `getCurrentSection` equals the spec's reference algorithm on every
input: `0` when `offsetY = 0`, otherwise the highest index whose top offset
is strictly below `offsetY + partialHeight`, and `0` when no index
qualifies; in particular, for top offsets `[0, 500, 1200, 2000]`,
`partialHeight = 300` and `offsetY = 650` it returns `1`. -/
theorem getCurrentSection_eq_locateSpec :
    (∀ (sections : List Element) (offsetY partialHeight : Int),
        getCurrentSection sections offsetY partialHeight =
          locateSpec sections offsetY partialHeight) ∧
      getCurrentSection
        [⟨"", "", 0⟩, ⟨"", "", 500⟩, ⟨"", "", 1200⟩, ⟨"", "", 2000⟩] 650 300 = 1 := by
  constructor
  · intro sections offsetY partialHeight
    unfold getCurrentSection locateSpec
    by_cases h : offsetY = 0
    · rw [if_pos h, if_pos h]
    · rw [if_neg h, if_neg h]
      exact sectionScan_eq_foldl sections (offsetY + partialHeight) sections.length
  · decide

/-- C2 counterexample: with sections whose top offsets are `[100, 110]`
(document order, non-empty), `offsetY = 50` strictly below the first top
offset `100`, and `partialHeight = 100`, `getCurrentSection` returns `1`,
not `0` as the claim demands: `effective = 150` strictly exceeds the last
section's top offset `110`. -/
theorem getCurrentSection_below_first_ne_zero :
    (50 : Int) < (([⟨"", "", 100⟩, ⟨"", "", 110⟩] : List Element).getD 0 default).offsetTop ∧
      getCurrentSection [⟨"", "", 100⟩, ⟨"", "", 110⟩] 50 100 ≠ 0 := by
  decide

/-- C2 amended: for every non-empty sections list and every `partialHeight`,
if `offsetY + partialHeight` is at most every section's top offset, then
`getCurrentSection` returns `0`. -/
theorem getCurrentSection_eq_zero_of_le (sections : List Element)
    (offsetY partialHeight : Int) (hne : sections ≠ [])
    (h : ∀ e ∈ sections, offsetY + partialHeight ≤ e.offsetTop) :
    getCurrentSection sections offsetY partialHeight = 0 := by
  unfold getCurrentSection
  by_cases h0 : offsetY = 0
  · rw [if_pos h0]
  · rw [if_neg h0]
    refine sectionScan_eq_zero sections (offsetY + partialHeight) sections.length ?_
    intro i hi
    have hmem : sections.getD i default ∈ sections := by
      rw [List.getD_eq_getElem sections default hi]
      exact List.getElem_mem hi
    exact not_lt.mpr (h (sections.getD i default) hmem)

/-- C2 amended, witness: sections with top offsets `[100, 110]`, `offsetY = 20`,
`partialHeight = 30`: `effective = 50` is at most both offsets, so the locator
returns `0`. -/
theorem getCurrentSection_eq_zero_of_le_witness :
    getCurrentSection [⟨"", "", 100⟩, ⟨"", "", 110⟩] 20 30 = 0 :=
  getCurrentSection_eq_zero_of_le [⟨"", "", 100⟩, ⟨"", "", 110⟩] 20 30
    (by decide) (by decide)

/-- C4: for a fixed sections list and fixed `partialHeight`,
`getCurrentSection` is monotonic non-decreasing in `offsetY` over the
non-negative offsets. -/
theorem getCurrentSection_mono (sections : List Element)
    (partialHeight offsetY₁ offsetY₂ : Int) (h0 : 0 ≤ offsetY₁)
    (h12 : offsetY₁ ≤ offsetY₂) :
    getCurrentSection sections offsetY₁ partialHeight ≤
      getCurrentSection sections offsetY₂ partialHeight := by
  unfold getCurrentSection
  by_cases h1 : offsetY₁ = 0
  · rw [if_pos h1]
    exact Nat.zero_le _
  · have h2 : offsetY₂ ≠ 0 := by omega
    rw [if_neg h1, if_neg h2]
    exact sectionScan_mono sections (by omega) sections.length

/-- C4 witness: at top offsets `[0, 500, 1200, 2000]` with
`partialHeight = 300`, the section at `offsetY = 0` is at most the section
at `offsetY = 650`. -/
theorem getCurrentSection_mono_witness :
    getCurrentSection
        [⟨"", "", 0⟩, ⟨"", "", 500⟩, ⟨"", "", 1200⟩, ⟨"", "", 2000⟩] 0 300 ≤
      getCurrentSection
        [⟨"", "", 0⟩, ⟨"", "", 500⟩, ⟨"", "", 1200⟩, ⟨"", "", 2000⟩] 650 300 :=
  getCurrentSection_mono
    [⟨"", "", 0⟩, ⟨"", "", 500⟩, ⟨"", "", 1200⟩, ⟨"", "", 2000⟩] 300 0 650
    (by decide) (by decide)

theorem length_setClassAt (c : String) :
    ∀ (es : List Element) (i : Nat), (setClassAt es i c).length = es.length := by
  intro es
  induction es with
  | nil => intro i; rfl
  | cons e rest ih =>
    intro i
    cases i with
    | zero => rfl
    | succ n => simp [setClassAt, ih n]

theorem getD_setClassAt (c : String) :
    ∀ (es : List Element) (i j : Nat),
      (setClassAt es i c).getD j default =
        if i = j ∧ j < es.length then { es.getD j default with className := c }
        else es.getD j default := by
  intro es
  induction es with
  | nil =>
    intro i j
    rw [if_neg (by simp)]
    rfl
  | cons e rest ih =>
    intro i j
    cases i with
    | zero =>
      cases j with
      | zero => simp [setClassAt]
      | succ m => simp [setClassAt]
    | succ n =>
      cases j with
      | zero => simp [setClassAt]
      | succ m =>
        simp only [setClassAt, List.getD_cons_succ, List.length_cons]
        rw [ih n m]
        by_cases hc : n = m ∧ m < rest.length
        · rw [if_pos hc, if_pos (by omega)]
        · rw [if_neg hc, if_neg (by omega)]

theorem setClassAt_setClassAt (c c' : String) :
    ∀ (es : List Element) (i : Nat),
      setClassAt (setClassAt es i c) i c' = setClassAt es i c' := by
  intro es
  induction es with
  | nil => intro i; rfl
  | cons e rest ih =>
    intro i
    cases i with
    | zero => rfl
    | succ n => simp [setClassAt, ih n]

theorem countSelected_zero :
    ∀ es : List Element,
      (∀ j, j < es.length → (es.getD j default).className ≠ "selected") →
      countSelected es = 0 := by
  intro es
  induction es with
  | nil => intro _; rfl
  | cons e rest ih =>
    intro h
    have he : e.className ≠ "selected" := by simpa using h 0 (by simp)
    have hrest : countSelected rest = 0 := by
      refine ih (fun j hj => ?_)
      simpa using h (j + 1) (by simpa using Nat.succ_lt_succ hj)
    simp [countSelected, he, hrest]

theorem countSelected_one :
    ∀ (es : List Element) (i : Nat), i < es.length →
      (es.getD i default).className = "selected" →
      (∀ j, j < es.length → j ≠ i → (es.getD j default).className ≠ "selected") →
      countSelected es = 1 := by
  intro es
  induction es with
  | nil => intro i hi; simp at hi
  | cons e rest ih =>
    intro i hi hsel hother
    cases i with
    | zero =>
      have he : e.className = "selected" := by simpa using hsel
      have hrest : countSelected rest = 0 := by
        refine countSelected_zero rest (fun j hj => ?_)
        simpa using hother (j + 1) (by simpa using Nat.succ_lt_succ hj) (by omega)
      simp [countSelected, he, hrest]
    | succ m =>
      have he : e.className ≠ "selected" := by
        simpa using hother 0 (by simp) (by omega)
      have hm : m < rest.length := by simpa using hi
      have hrest : countSelected rest = 1 := by
        refine ih m hm (by simpa using hsel) (fun j hj hjm => ?_)
        simpa using hother (j + 1) (by simpa using Nat.succ_lt_succ hj) (by omega)
      simp [countSelected, he, hrest]

theorem grouping_select_unique (es : List Element) (old i : Nat) (hi : i < es.length)
    (hw : ∀ j, j < es.length → j ≠ old → (es.getD j default).className ≠ "selected") :
    countSelected (setClassAt (setClassAt es old "") i "selected") = 1 ∧
      ((setClassAt (setClassAt es old "") i "selected").getD i default).className =
        "selected" := by
  have hlen1 : (setClassAt es old "").length = es.length := length_setClassAt "" es old
  have hlen2 :
      (setClassAt (setClassAt es old "") i "selected").length = es.length := by
    rw [length_setClassAt "selected" _ i, hlen1]
  have hgetI :
      ((setClassAt (setClassAt es old "") i "selected").getD i default).className =
        "selected" := by
    rw [getD_setClassAt "selected" _ i i, if_pos ⟨rfl, by omega⟩]
  refine ⟨?_, hgetI⟩
  refine countSelected_one _ i (by omega) hgetI (fun j hj hji => ?_)
  rw [hlen2] at hj
  rw [getD_setClassAt "selected" _ i j, if_neg (by omega)]
  rw [getD_setClassAt "" es old j]
  by_cases hc : old = j ∧ j < es.length
  · rw [if_pos hc]
    simp
  · rw [if_neg hc]
    exact hw j hj (by omega)

/-- C5: from any state in which at most the currently selected index carries
the `"selected"` marker, `setSelectedSection i` (`i` a valid index for both
groupings) leaves exactly one linker and exactly one section carrying the
marker, namely at index `i`; calling it again with the same index is
idempotent; and a state in which no linker and no section carries the marker
(the markup before the very first call) has marker count zero in both
groupings. -/
theorem setSelectedSection_exactly_one (s : AppState) (i N : Nat)
    (hl : s.linkers.length = N) (hs : s.sections.length = N) (hi : i < N)
    (hwl : ∀ j, j < N → j ≠ s.selectedSection →
      (s.linkers.getD j default).className ≠ "selected")
    (hws : ∀ j, j < N → j ≠ s.selectedSection →
      (s.sections.getD j default).className ≠ "selected") :
    countSelected (setSelectedSection s i).linkers = 1 ∧
      countSelected (setSelectedSection s i).sections = 1 ∧
      ((setSelectedSection s i).linkers.getD i default).className = "selected" ∧
      ((setSelectedSection s i).sections.getD i default).className = "selected" ∧
      setSelectedSection (setSelectedSection s i) i = setSelectedSection s i ∧
      ((∀ j, j < N → (s.linkers.getD j default).className ≠ "selected") →
        countSelected s.linkers = 0) ∧
      ((∀ j, j < N → (s.sections.getD j default).className ≠ "selected") →
        countSelected s.sections = 0) := by
  obtain ⟨hc1, hg1⟩ :=
    grouping_select_unique s.linkers s.selectedSection i (by omega)
      (fun j hj => hwl j (by omega))
  obtain ⟨hc2, hg2⟩ :=
    grouping_select_unique s.sections s.selectedSection i (by omega)
      (fun j hj => hws j (by omega))
  refine ⟨hc1, hc2, hg1, hg2, ?_, ?_, ?_⟩
  · simp [setSelectedSection, setClassAt_setClassAt]
  · intro h
    exact countSelected_zero s.linkers (fun j hj => h j (by omega))
  · intro h
    exact countSelected_zero s.sections (fun j hj => h j (by omega))

/-- C5 witness: from a two-section state with no marker anywhere,
`setSelectedSection 1` leaves exactly one marked linker. -/
theorem setSelectedSection_exactly_one_witness :
    countSelected
      (setSelectedSection
        ⟨[⟨"", "", 0⟩, ⟨"", "", 0⟩], [⟨"", "a", 0⟩, ⟨"", "b", 500⟩],
          0, false, true, 0, none, ""⟩ 1).linkers = 1 :=
  (setSelectedSection_exactly_one
    ⟨[⟨"", "", 0⟩, ⟨"", "", 0⟩], [⟨"", "a", 0⟩, ⟨"", "b", 500⟩],
      0, false, true, 0, none, ""⟩ 1 2 rfl rfl (by decide)
    (by decide) (by decide)).1

/-- C10: `setSelectedSection j` overwrites the whole class attribute of the
previously selected linker and section with the empty string and the whole
class attribute of linker and section `j` with exactly `"selected"`,
whatever class names those four elements carried before (the indices being
valid and the old index distinct from `j`). -/
theorem setSelectedSection_overwrites_className (s : AppState) (j : Nat)
    (hjl : j < s.linkers.length) (hjs : j < s.sections.length)
    (hol : s.selectedSection < s.linkers.length)
    (hos : s.selectedSection < s.sections.length)
    (hne : s.selectedSection ≠ j) :
    ((setSelectedSection s j).linkers.getD s.selectedSection default).className = "" ∧
      ((setSelectedSection s j).sections.getD s.selectedSection default).className = "" ∧
      ((setSelectedSection s j).linkers.getD j default).className = "selected" ∧
      ((setSelectedSection s j).sections.getD j default).className = "selected" := by
  have old_of : ∀ es : List Element, s.selectedSection < es.length →
      ((setClassAt (setClassAt es s.selectedSection "") j "selected").getD
        s.selectedSection default).className = "" := by
    intro es hlt
    rw [getD_setClassAt "selected" _ j s.selectedSection, if_neg (by omega)]
    rw [getD_setClassAt "" es s.selectedSection s.selectedSection,
      if_pos ⟨rfl, hlt⟩]
  have new_of : ∀ es : List Element, j < es.length →
      ((setClassAt (setClassAt es s.selectedSection "") j "selected").getD
        j default).className = "selected" := by
    intro es hlt
    rw [getD_setClassAt "selected" _ j j,
      if_pos ⟨rfl, by rw [length_setClassAt]; omega⟩]
  exact ⟨old_of s.linkers hol, old_of s.sections hos,
    new_of s.linkers hjl, new_of s.sections hjs⟩

/-- C10 witness: with prior class attributes `"navbar shiny"` and `"fancy"`,
moving the selection from index 0 to index 1 leaves linker 1's class
attribute exactly `"selected"` (the prior names erased, not merged). -/
theorem setSelectedSection_overwrites_className_witness :
    (((setSelectedSection
        ⟨[⟨"navbar shiny", "", 0⟩, ⟨"fancy", "", 0⟩],
          [⟨"current big", "a", 0⟩, ⟨"plain", "b", 500⟩],
          0, false, true, 0, none, ""⟩ 1).linkers.getD 1 default).className) =
      "selected" :=
  (setSelectedSection_overwrites_className
    ⟨[⟨"navbar shiny", "", 0⟩, ⟨"fancy", "", 0⟩],
      [⟨"current big", "a", 0⟩, ⟨"plain", "b", 500⟩],
      0, false, true, 0, none, ""⟩ 1 (by decide) (by decide) (by decide)
    (by decide) (by decide)).2.2.1

theorem id_setClassAt (c : String) (es : List Element) (i j : Nat) :
    ((setClassAt es i c).getD j default).id = (es.getD j default).id := by
  rw [getD_setClassAt]
  split
  · rfl
  · rfl

theorem id_setSelectedSection (s : AppState) (n j : Nat) :
    ((setSelectedSection s n).sections.getD j default).id =
      (s.sections.getD j default).id := by
  simp only [setSelectedSection]
  rw [id_setClassAt, id_setClassAt]

/-- C3 counterexample to the claim as stated: a scroll pass whose recomputed
section equals the current selection still rewrites the URL hash.  Here the
recomputed section is `0 = selectedSection`, yet the pass changes
`locationHash` from `""` to `"#intro"`. -/
theorem onScrollPass_rewrites_hash_when_unchanged :
    getCurrentSection
        (AppState.sections
          ⟨[⟨"selected", "", 0⟩, ⟨"", "", 0⟩],
            [⟨"selected", "intro", 0⟩, ⟨"", "about", 500⟩],
            0, false, true, 0, none, ""⟩) 0 300 =
        AppState.selectedSection
          ⟨[⟨"selected", "", 0⟩, ⟨"", "", 0⟩],
            [⟨"selected", "intro", 0⟩, ⟨"", "about", 500⟩],
            0, false, true, 0, none, ""⟩ ∧
      (onScrollPass 300
          ⟨[⟨"selected", "", 0⟩, ⟨"", "", 0⟩],
            [⟨"selected", "intro", 0⟩, ⟨"", "about", 500⟩],
            0, false, true, 0, none, ""⟩).locationHash ≠ "" := by
  decide

/-- C3 amended: a throttled scroll pass recomputes the active section with
the Section Locator and updates the selection (classes and
`selectedSection`) only when the recomputed section differs from the current
one; the URL hash, however, is written on every pass, to `"#"` plus the
recomputed section's id. -/
theorem onScrollPass_selection_and_hash (partialHeight : Int) (s : AppState) :
    (getCurrentSection s.sections s.offsetY partialHeight = s.selectedSection →
      (onScrollPass partialHeight s).selectedSection = s.selectedSection ∧
        (onScrollPass partialHeight s).linkers = s.linkers ∧
        (onScrollPass partialHeight s).sections = s.sections) ∧
      (onScrollPass partialHeight s).locationHash =
        "#" ++ (s.sections.getD
          (getCurrentSection s.sections s.offsetY partialHeight) default).id ∧
      (getCurrentSection s.sections s.offsetY partialHeight ≠ s.selectedSection →
        onScrollPass partialHeight s =
          setLocationHash
            (setSelectedSection s
              (getCurrentSection s.sections s.offsetY partialHeight))
            ((s.sections.getD
              (getCurrentSection s.sections s.offsetY partialHeight) default).id)) := by
  set n := getCurrentSection s.sections s.offsetY partialHeight with hn
  by_cases h : n = s.selectedSection
  · have hpass : onScrollPass partialHeight s =
        setLocationHash s ((s.sections.getD n default).id) := by
      simp only [onScrollPass, ← hn]
      rw [if_neg (not_not_intro h)]
    rw [hpass]
    exact ⟨fun _ => ⟨rfl, rfl, rfl⟩, rfl, fun hc => absurd h hc⟩
  · have hpass : onScrollPass partialHeight s =
        setLocationHash (setSelectedSection s n)
          (((setSelectedSection s n).sections.getD n default).id) := by
      simp only [onScrollPass, ← hn]
      rw [if_pos h]
    rw [hpass]
    refine ⟨fun hc => absurd hc h, ?_, fun _ => ?_⟩
    · show "#" ++ ((setSelectedSection s n).sections.getD n default).id =
        "#" ++ (s.sections.getD n default).id
      rw [id_setSelectedSection]
    · rw [id_setSelectedSection]

/-- C3 amended, witness: with sections `a` (top 0) and `b` (top 500),
selection 0, `offsetY = 650` and `partialHeight = 300`, the recomputed
section is 1, so the pass selects it and writes its id into the hash. -/
theorem onScrollPass_selection_and_hash_witness :
    onScrollPass 300
        ⟨[⟨"", "", 0⟩, ⟨"", "", 0⟩], [⟨"", "a", 0⟩, ⟨"", "b", 500⟩],
          0, false, true, 650, none, ""⟩ =
      setLocationHash
        (setSelectedSection
          ⟨[⟨"", "", 0⟩, ⟨"", "", 0⟩], [⟨"", "a", 0⟩, ⟨"", "b", 500⟩],
            0, false, true, 650, none, ""⟩ 1) "b" :=
  (onScrollPass_selection_and_hash 300
    ⟨[⟨"", "", 0⟩, ⟨"", "", 0⟩], [⟨"", "a", 0⟩, ⟨"", "b", 500⟩],
      0, false, true, 650, none, ""⟩).2.2 (by decide)

/-- C8: calling `scrollToSection` while an animation is in progress
(`scrolling = true`) is a no-op for every section index: the state — offsets,
flags, listener attachment, selection — is returned unchanged and no
animation frames run. -/
theorem scrollToSection_noop_while_scrolling (lo hi : Int) (fuel : Nat)
    (s : AppState) (sectionIndex : Nat) (h : s.scrolling = true) :
    scrollToSection lo hi fuel s sectionIndex = s := by
  simp [scrollToSection, h]

/-- C8 witness: a concrete mid-animation state is returned unchanged. -/
theorem scrollToSection_noop_while_scrolling_witness :
    scrollToSection 0 1000 7
        ⟨[⟨"selected", "", 0⟩], [⟨"selected", "a", 0⟩], 0, true, false, 40, some 20, "#a"⟩
        0 =
      ⟨[⟨"selected", "", 0⟩], [⟨"selected", "a", 0⟩], 0, true, false, 40, some 20, "#a"⟩ :=
  scrollToSection_noop_while_scrolling 0 1000 7
    ⟨[⟨"selected", "", 0⟩], [⟨"selected", "a", 0⟩], 0, true, false, 40, some 20, "#a"⟩
    0 rfl

theorem scrollToSection_selectedSection (lo hi : Int) (fuel : Nat)
    (s : AppState) (i : Nat) :
    (scrollToSection lo hi fuel s i).selectedSection = s.selectedSection := by
  unfold scrollToSection
  split
  · rfl
  · rfl

/-- C6: with neither shift nor control held, from `selectedSection = k` with
`0 < k < N - 1` the left key (code 37) selects `k - 1` and the right key
(code 39) selects `k + 1`, each by `setSelectedSection` followed by the
animated `scrollToSection` toward that section; the left key at `k = 0` and
the right key at `k = N - 1` leave the state unchanged, as does any event
with shift or control held or with an unrecognized key code. -/
theorem onKeyDown_navigation (lo hi : Int) (fuel : Nat) (s : AppState) (k N : Nat)
    (hN : s.sections.length = N) (hk : s.selectedSection = k) :
    (0 < k → k + 1 < N →
      onKeyDown lo hi fuel ⟨false, false, 37⟩ s =
          scrollToSection lo hi fuel (setSelectedSection s (k - 1)) (k - 1) ∧
        (onKeyDown lo hi fuel ⟨false, false, 37⟩ s).selectedSection = k - 1 ∧
        onKeyDown lo hi fuel ⟨false, false, 39⟩ s =
          scrollToSection lo hi fuel (setSelectedSection s (k + 1)) (k + 1) ∧
        (onKeyDown lo hi fuel ⟨false, false, 39⟩ s).selectedSection = k + 1) ∧
      (k = 0 → onKeyDown lo hi fuel ⟨false, false, 37⟩ s = s) ∧
      (k + 1 = N → onKeyDown lo hi fuel ⟨false, false, 39⟩ s = s) ∧
      (∀ e : KeyEvent, e.shiftKey = true ∨ e.ctrlKey = true →
        onKeyDown lo hi fuel e s = s) ∧
      (∀ e : KeyEvent, e.keyCode ≠ 37 → e.keyCode ≠ 39 →
        onKeyDown lo hi fuel e s = s) := by
  subst hk
  subst hN
  have key37 : onKeyDown lo hi fuel ⟨false, false, 37⟩ s =
      if ((s.selectedSection : Int) + (-1) < 0 ∨
          (s.selectedSection : Int) + (-1) = (s.sections.length : Int)) then s
      else
        scrollToSection lo hi fuel
          (setSelectedSection s ((s.selectedSection : Int) + (-1)).toNat)
          ((s.selectedSection : Int) + (-1)).toNat := rfl
  have key39 : onKeyDown lo hi fuel ⟨false, false, 39⟩ s =
      if ((s.selectedSection : Int) + 1 < 0 ∨
          (s.selectedSection : Int) + 1 = (s.sections.length : Int)) then s
      else
        scrollToSection lo hi fuel
          (setSelectedSection s ((s.selectedSection : Int) + 1).toNat)
          ((s.selectedSection : Int) + 1).toNat := rfl
  refine ⟨fun hk0 hkN => ?_, fun hk0 => ?_, fun hkN => ?_, ?_, ?_⟩
  · have h37 : onKeyDown lo hi fuel ⟨false, false, 37⟩ s =
        scrollToSection lo hi fuel
          (setSelectedSection s (s.selectedSection - 1)) (s.selectedSection - 1) := by
      rw [key37, if_neg (by omega),
        show ((s.selectedSection : Int) + (-1)).toNat = s.selectedSection - 1 by omega]
    have h39 : onKeyDown lo hi fuel ⟨false, false, 39⟩ s =
        scrollToSection lo hi fuel
          (setSelectedSection s (s.selectedSection + 1)) (s.selectedSection + 1) := by
      rw [key39, if_neg (by omega),
        show ((s.selectedSection : Int) + 1).toNat = s.selectedSection + 1 by omega]
    refine ⟨h37, ?_, h39, ?_⟩
    · rw [h37, scrollToSection_selectedSection]
      rfl
    · rw [h39, scrollToSection_selectedSection]
      rfl
  · rw [key37, if_pos (by omega)]
  · rw [key39, if_pos (by omega)]
  · rintro ⟨sh, ct, kc⟩ (h | h)
    · simp only at h
      subst h
      rfl
    · simp only at h
      subst h
      cases sh
      · rfl
      · rfl
  · rintro ⟨sh, ct, kc⟩ h37 h39
    simp only at h37 h39
    cases sh
    · cases ct
      · have hcode : eventKeyCodes kc = none := by
          simp [eventKeyCodes, h37, h39]
        simp [onKeyDown, hcode]
      · rfl
    · rfl

/-- C6 witness: with three sections and `selectedSection = 1`, the right
key moves the selection to `2`. -/
theorem onKeyDown_navigation_witness :
    (onKeyDown 0 2000 30 ⟨false, false, 39⟩
        ⟨[⟨"", "", 0⟩, ⟨"selected", "", 0⟩, ⟨"", "", 0⟩],
          [⟨"", "a", 0⟩, ⟨"selected", "b", 500⟩, ⟨"", "c", 1200⟩],
          1, false, true, 650, none, "#b"⟩).selectedSection = 1 + 1 :=
  ((onKeyDown_navigation 0 2000 30
      ⟨[⟨"", "", 0⟩, ⟨"selected", "", 0⟩, ⟨"", "", 0⟩],
        [⟨"", "a", 0⟩, ⟨"selected", "b", 500⟩, ⟨"", "c", 1200⟩],
        1, false, true, 650, none, "#b"⟩ 1 3 rfl rfl).1
    (by decide) (by decide)).2.2.2

theorem clampStep_natAbs_le (difference : Int) : (clampStep difference).natAbs ≤ 49 := by
  unfold clampStep
  simp only [min_def, max_def]
  split_ifs <;> omega

theorem scrollClamp_progress (lo hi offsetTop y : Int) (hlh : lo ≤ hi)
    (h1 : lo ≤ y) (h2 : y ≤ hi) (hne : offsetTop - y ≠ 0) :
    lo ≤ scrollClamp lo hi (y + clampStep (offsetTop - y)) ∧
      scrollClamp lo hi (y + clampStep (offsetTop - y)) ≤ hi ∧
      (scrollClamp lo hi (y + clampStep (offsetTop - y)) = y ∨
        (offsetTop - scrollClamp lo hi (y + clampStep (offsetTop - y))).natAbs <
          (offsetTop - y).natAbs) := by
  unfold scrollClamp clampStep
  simp only [min_def, max_def]
  split_ifs <;> omega

theorem scrollerFrame_exit (lo hi offsetTop : Int) (s : ScrollAnim)
    (h : s.lastOffsetY = some s.offsetY ∨ offsetTop - s.offsetY = 0) :
    scrollerFrame lo hi offsetTop s =
      ({ s with scrolling := false, lastOffsetY := none, addedScrollEvents := true },
        false) := by
  rw [scrollerFrame, if_pos h]

theorem scrollerFrame_cont (lo hi offsetTop : Int) (s : ScrollAnim)
    (h : ¬(s.lastOffsetY = some s.offsetY ∨ offsetTop - s.offsetY = 0)) :
    scrollerFrame lo hi offsetTop s =
      ({ s with
          offsetY := scrollClamp lo hi (s.offsetY + clampStep (offsetTop - s.offsetY))
          lastOffsetY := some s.offsetY }, true) := by
  rw [scrollerFrame, if_neg h]

theorem scrollerTerminatesIn_of_exit (lo hi offsetTop : Int) (fuel : Nat)
    (s t : ScrollAnim) (h : scrollerFrame lo hi offsetTop s = (t, false)) :
    scrollerTerminatesIn lo hi offsetTop (fuel + 1) s = true := by
  rw [scrollerTerminatesIn, h]

theorem scrollerTerminatesIn_of_cont (lo hi offsetTop : Int) (fuel : Nat)
    (s t : ScrollAnim) (h : scrollerFrame lo hi offsetTop s = (t, true)) :
    scrollerTerminatesIn lo hi offsetTop (fuel + 1) s =
      scrollerTerminatesIn lo hi offsetTop fuel t := by
  rw [scrollerTerminatesIn, h]

theorem scrollerRunAll_of_exit (lo hi offsetTop : Int) (fuel : Nat)
    (s t : ScrollAnim) (h : scrollerFrame lo hi offsetTop s = (t, false)) :
    scrollerRunAll lo hi offsetTop (fuel + 1) s = t := by
  rw [scrollerRunAll, h]

theorem scrollerRunAll_of_cont (lo hi offsetTop : Int) (fuel : Nat)
    (s t : ScrollAnim) (h : scrollerFrame lo hi offsetTop s = (t, true)) :
    scrollerRunAll lo hi offsetTop (fuel + 1) s =
      scrollerRunAll lo hi offsetTop fuel t := by
  rw [scrollerRunAll, h]

theorem scrollerTerminatesIn_of_fuel (lo hi offsetTop : Int) (hlh : lo ≤ hi) :
    ∀ (fuel : Nat) (s : ScrollAnim), lo ≤ s.offsetY → s.offsetY ≤ hi →
      (offsetTop - s.offsetY).natAbs + 2 ≤ fuel →
      scrollerTerminatesIn lo hi offsetTop fuel s = true := by
  intro fuel
  induction fuel with
  | zero => intro s _ _ hf; omega
  | succ fuel ih =>
    intro s h1 h2 hf
    by_cases hterm : s.lastOffsetY = some s.offsetY ∨ offsetTop - s.offsetY = 0
    · exact scrollerTerminatesIn_of_exit lo hi offsetTop fuel s _
        (scrollerFrame_exit lo hi offsetTop s hterm)
    · have hne : offsetTop - s.offsetY ≠ 0 := fun hc => hterm (Or.inr hc)
      obtain ⟨ha, hb, hc⟩ :=
        scrollClamp_progress lo hi offsetTop s.offsetY hlh h1 h2 hne
      rw [scrollerTerminatesIn_of_cont lo hi offsetTop fuel s _
        (scrollerFrame_cont lo hi offsetTop s hterm)]
      rcases hc with hcy | hdec
      · obtain ⟨fuel', rfl⟩ : ∃ f, fuel = f + 1 := ⟨fuel - 1, by omega⟩
        refine scrollerTerminatesIn_of_exit lo hi offsetTop fuel' _ _
          (scrollerFrame_exit lo hi offsetTop _ (Or.inl ?_))
        show some s.offsetY =
          some (scrollClamp lo hi (s.offsetY + clampStep (offsetTop - s.offsetY)))
        rw [hcy]
      · refine ih _ ha hb ?_
        show (offsetTop -
          scrollClamp lo hi (s.offsetY + clampStep (offsetTop - s.offsetY))).natAbs + 2 ≤ fuel
        omega

theorem scrollerRunAll_exit_state (lo hi offsetTop : Int) :
    ∀ (fuel : Nat) (s : ScrollAnim),
      scrollerTerminatesIn lo hi offsetTop fuel s = true →
      (scrollerRunAll lo hi offsetTop fuel s).scrolling = false ∧
        (scrollerRunAll lo hi offsetTop fuel s).lastOffsetY = none ∧
        (scrollerRunAll lo hi offsetTop fuel s).addedScrollEvents = true := by
  intro fuel
  induction fuel with
  | zero => intro s h; simp [scrollerTerminatesIn] at h
  | succ fuel ih =>
    intro s h
    by_cases hterm : s.lastOffsetY = some s.offsetY ∨ offsetTop - s.offsetY = 0
    · rw [scrollerRunAll_of_exit lo hi offsetTop fuel s _
        (scrollerFrame_exit lo hi offsetTop s hterm)]
      exact ⟨rfl, rfl, rfl⟩
    · have hframe := scrollerFrame_cont lo hi offsetTop s hterm
      rw [scrollerRunAll_of_cont lo hi offsetTop fuel s _ hframe]
      rw [scrollerTerminatesIn_of_cont lo hi offsetTop fuel s _ hframe] at h
      exact ih _ h

/-- C7: the `scroller` frame loop terminates for every target `offsetTop`
and every scroll-boundary model (a window clamping scrolls into any range
`[lo, hi]` containing the starting offset): the exit condition fires within
`|offsetTop - offsetY| + 2` frames, the state it leaves has the `scrolling`
flag cleared, the stall-detection sample `lastOffsetY` reset and the scroll
listener re-attached; a frame ends the loop exactly when the remaining
difference is `0` or the offset equals the previous frame's offset, and
every per-frame step is clamped to magnitude at most `49`. -/
theorem scroller_terminates (lo hi offsetTop offsetY : Int) (hlh : lo ≤ hi)
    (h1 : lo ≤ offsetY) (h2 : offsetY ≤ hi) :
    scrollerTerminatesIn lo hi offsetTop ((offsetTop - offsetY).natAbs + 2)
        ⟨offsetY, none, true, false⟩ = true ∧
      (scrollerRunAll lo hi offsetTop ((offsetTop - offsetY).natAbs + 2)
          ⟨offsetY, none, true, false⟩).scrolling = false ∧
      (scrollerRunAll lo hi offsetTop ((offsetTop - offsetY).natAbs + 2)
          ⟨offsetY, none, true, false⟩).lastOffsetY = none ∧
      (scrollerRunAll lo hi offsetTop ((offsetTop - offsetY).natAbs + 2)
          ⟨offsetY, none, true, false⟩).addedScrollEvents = true ∧
      (∀ s : ScrollAnim, (scrollerFrame lo hi offsetTop s).2 = false ↔
        (s.lastOffsetY = some s.offsetY ∨ offsetTop - s.offsetY = 0)) ∧
      (∀ difference : Int, (clampStep difference).natAbs ≤ 49) := by
  have hterm : scrollerTerminatesIn lo hi offsetTop ((offsetTop - offsetY).natAbs + 2)
      ⟨offsetY, none, true, false⟩ = true :=
    scrollerTerminatesIn_of_fuel lo hi offsetTop hlh _ ⟨offsetY, none, true, false⟩
      h1 h2 (Nat.le_refl _)
  obtain ⟨hf1, hf2, hf3⟩ := scrollerRunAll_exit_state lo hi offsetTop _ _ hterm
  refine ⟨hterm, hf1, hf2, hf3, fun s => ?_, clampStep_natAbs_le⟩
  by_cases hexit : s.lastOffsetY = some s.offsetY ∨ offsetTop - s.offsetY = 0
  · rw [scrollerFrame, if_pos hexit]
    simpa using hexit
  · rw [scrollerFrame, if_neg hexit]
    simpa using hexit

/-- C7 witness: from offset `0` in scroll range `[0, 10]` with target `5`,
the loop's exit condition fires within `|5 - 0| + 2` frames. -/
theorem scroller_terminates_witness :
    scrollerTerminatesIn 0 10 5 (((5 : Int) - 0).natAbs + 2)
        ⟨0, none, true, false⟩ = true :=
  (scroller_terminates 0 10 5 0 (by decide) (by decide) (by decide)).1

theorem storageGet_storageSet :
    ∀ (store : List (String × String)) (key value : String),
      storageGet (storageSet store key value) key = some value := by
  intro store
  induction store with
  | nil => intro key value; simp [storageSet, storageGet]
  | cons kv rest ih =>
    intro key value
    obtain ⟨k, v⟩ := kv
    by_cases hk : k = key
    · simp [storageSet, storageGet, hk]
    · simp only [storageSet, if_neg hk]
      simp only [storageGet, if_neg hk]
      exact ih key value

theorem storageCount_storageSet_of_none :
    ∀ (store : List (String × String)) (key value : String),
      storageGet store key = none →
      storageCount (storageSet store key value) key = 1 := by
  intro store
  induction store with
  | nil => intro key value _; simp [storageSet, storageCount]
  | cons kv rest ih =>
    intro key value hget
    obtain ⟨k, v⟩ := kv
    by_cases hk : k = key
    · rw [storageGet, if_pos hk] at hget
      exact absurd hget (by simp)
    · rw [storageGet, if_neg hk] at hget
      rw [storageSet, if_neg hk, storageCount, if_neg hk]
      rw [ih key value hget]

/-- C9 counterexample to the claim as stated: local storage holds an entry
for the key `jkg-dot-com-images:a` whose value is the empty string; the
claim says a load of `a` then uses the cached entry with no fetch and an
unchanged cache, but `if (storedData)` treats the empty string as falsy, so
`fadeImageIn` fetches `a` and overwrites the entry. -/
theorem fadeImageIn_refetches_empty_entry :
    (fadeImageIn [("jkg-dot-com-images:a", "")] (fun _ => "data:x") ⟨"a", none, ""⟩).requests =
        ["a"] ∧
      (fadeImageIn [("jkg-dot-com-images:a", "")] (fun _ => "data:x") ⟨"a", none, ""⟩).store ≠
        [("jkg-dot-com-images:a", "")] := by
  decide

/-- C9 amended: when no cache entry for key prefix+U exists, `fadeImageIn`
fetches U and persists exactly one entry under prefix+U containing the
encoded data, assigning it as the live source; when a non-empty entry
exists, it assigns the cached value as the source after the fade delay,
issues no fetch and leaves the cache unchanged; an empty-string entry is
treated as absent (JS truthiness) and is refetched. -/
theorem fadeImageIn_cache (store : List (String × String)) (encode : String → String)
    (image : Image) :
    (storageGet store (storageKeyOf image.dataSrc) = none →
      (fadeImageIn store encode image).requests = [image.dataSrc] ∧
        storageCount (fadeImageIn store encode image).store
          (storageKeyOf image.dataSrc) = 1 ∧
        storageGet (fadeImageIn store encode image).store (storageKeyOf image.dataSrc) =
          some (encode image.dataSrc) ∧
        (fadeImageIn store encode image).image.src = some (encode image.dataSrc)) ∧
      (∀ v, v ≠ "" → storageGet store (storageKeyOf image.dataSrc) = some v →
        (fadeImageIn store encode image).image.src = some v ∧
          (fadeImageIn store encode image).store = store ∧
          (fadeImageIn store encode image).requests = []) ∧
      (storageGet store (storageKeyOf image.dataSrc) = some "" →
        (fadeImageIn store encode image).requests = [image.dataSrc]) := by
  have heq : fadeImageIn store encode image =
      fadeImageInStep store encode image
        (storageGet store (storageKeyOf image.dataSrc)) := rfl
  cases hget : storageGet store (storageKeyOf image.dataSrc) with
  | none =>
    have hfade : fadeImageIn store encode image = fadeImageInFetch store encode image := by
      rw [heq, hget]
      rfl
    refine ⟨fun _ => ?_, fun v hv hsome => absurd hsome (by simp),
      fun hsome => absurd hsome (by simp)⟩
    rw [hfade]
    exact ⟨rfl, storageCount_storageSet_of_none store _ _ hget,
      storageGet_storageSet store _ _, rfl⟩
  | some w =>
    by_cases hw : w = ""
    · subst hw
      have hfade : fadeImageIn store encode image = fadeImageInFetch store encode image := by
        rw [heq, hget]
        rfl
      refine ⟨fun hnone => absurd hnone (by simp), fun v hv hsome => ?_, fun _ => ?_⟩
      · have : v = "" := by simpa using hsome.symm
        exact absurd this hv
      · rw [hfade]
        rfl
    · have hfade : fadeImageIn store encode image =
          { image :=
              { image with
                src := some w
                className := (image.className ++ " loading").replace "loading" "loaded" }
            store := store
            requests := [] } := by
        rw [heq, hget, fadeImageInStep, if_neg hw]
      refine ⟨fun hnone => absurd hnone (by simp), fun v hv hsome => ?_, fun hsome => ?_⟩
      · have hvw : w = v := by simpa using hsome
        subst hvw
        rw [hfade]
        exact ⟨rfl, rfl, rfl⟩
      · have : w = "" := by simpa using hsome
        exact absurd this hw

/-- C9 amended, witness: with an empty cache, loading the image whose
deferred source is `u` issues exactly the request for `u`. -/
theorem fadeImageIn_cache_witness :
    (fadeImageIn [] (fun _ => "data:enc") ⟨"u", none, ""⟩).requests = ["u"] :=
  ((fadeImageIn_cache [] (fun _ => "data:enc") ⟨"u", none, ""⟩).1 rfl).1

end Jkg
